import Mathlib

/-!
Verification of `fits2db.c` (FITS binary tables → database load streams).

Shallow embedding: byte streams are `List Nat` (each entry a byte value),
text output is `List Char`, and the global mutable state of the C program
(serial counter, column vectors, DDL flags) is passed explicitly.  Every
definition is translated from the C source; definitions whose name starts
with `spec_` instead follow the specification's words and are compared
against the source-derived ones.
-/

namespace Fits2DB

/-- Output format codes, fits2db.c lines 111–115 (`TAB_DELIMITED`,
`TAB_IPAC`, `TAB_POSTGRES`, `TAB_MYSQL`, `TAB_SQLITE`). -/
inductive Format
  | delimited
  | ipac
  | postgres
  | mysql
  | sqlite
  deriving DecidableEq, Repr

/-! ## C1: bundle closers -/

/-- Condition of `dl_fits2db` lines 841–842 under which the epilogue
(bundle closer) is written:
`(concat && filenum == (nfiles-1)) || (bnum > 0 && bnum == (bundle-1))`. -/
def closerRuns (concat : Bool) (filenum nfiles bnum bundle : Nat) : Bool :=
  (concat && (filenum == nfiles - 1)) || (decide (0 < bnum) && (bnum == bundle - 1))

/-- Closer bytes written by `dl_fits2db` lines 844–861: Postgres binary
writes a native `short -1` (bytes 0xFF 0xFF in either byte order), Postgres
text writes `"\\.\n"` (bytes 92 46 10), MySQL/SQLite write `";\n"`
(bytes 59 10); other formats write nothing. -/
def closerBytes (format : Format) (binary : Bool) : List Nat :=
  match format with
  | .postgres => if binary then [0xFF, 0xFF] else [92, 46, 10]
  | .mysql => [59, 10]
  | .sqlite => [59, 10]
  | _ => []

/-- Epilogue bytes emitted for one file of a run (lines 839–862). -/
def fileEpilogue (format : Format) (binary concat : Bool)
    (filenum nfiles bnum bundle : Nat) : List Nat :=
  if closerRuns concat filenum nfiles bnum bundle then closerBytes format binary
  else []

/-! ## C2: byte-swap policy for fixed-width numeric columns -/

/-- Big-endian value of a byte list (FITS stores all integers big-endian). -/
def beVal (bs : List Nat) : Nat := bs.foldl (fun acc b => acc * 256 + b) 0

/-- Little-endian value of a byte list. -/
def leVal (bs : List Nat) : Nat := beVal bs.reverse

/-- Host-native decode of buffer bytes.  `machSwap` is `is_swapped()`
(fits2db.c lines 2458–2468): true exactly on little-endian hosts. -/
def nativeVal (machSwap : Bool) (bs : List Nat) : Nat :=
  if machSwap then leVal bs else beVal bs

/-- `bswap2` (lines 2337–2359): swap successive byte pairs; a trailing odd
byte is moved unchanged. -/
def bswap2 : List Nat → List Nat
  | b0 :: b1 :: rest => b1 :: b0 :: bswap2 rest
  | rest => rest

/-- `bswap4` (lines 2366–2402): reverse each successive 4-byte group;
leftover bytes are moved unswapped. -/
def bswap4 : List Nat → List Nat
  | b0 :: b1 :: b2 :: b3 :: rest => b3 :: b2 :: b1 :: b0 :: bswap4 rest
  | rest => rest

/-- `bswap8` (lines 2409–2453): reverse each successive 8-byte group;
leftover bytes are moved unswapped. -/
def bswap8 : List Nat → List Nat
  | b0 :: b1 :: b2 :: b3 :: b4 :: b5 :: b6 :: b7 :: rest =>
      b7 :: b6 :: b5 :: b4 :: b3 :: b2 :: b1 :: b0 :: bswap8 rest
  | rest => rest

/-- `dl_printShort`, text path, scalar column (lines 1803–1804 and
1828–1855): the buffer is byte-swapped when `mach_swap && !do_binary`, then
decoded in host byte order.  The value is reported as the unsigned decode;
signedness is not at issue in the claim. -/
def shortTextVal (machSwap : Bool) (bs : List Nat) : Nat :=
  nativeVal machSwap (if machSwap then bswap2 bs else bs)

/-- `dl_printShort`, binary path (lines 1803–1804 and 1806–1826): the swap
guard `mach_swap && !do_binary` is false, so the raw (big-endian source)
bytes are copied to the output unchanged. -/
def shortBinaryPayload (machSwap : Bool) (bs : List Nat) : List Nat :=
  bs

/-- `dl_printInt`, text path, scalar column (lines 1873–1874 and
1898–1925): the swap is guarded by `mach_swap && do_binary`, so in text
mode NO swap happens before the host-native decode. -/
def intTextVal (machSwap : Bool) (bs : List Nat) : Nat :=
  nativeVal machSwap bs

/-- `dl_printInt`, binary path (lines 1873–1874 and 1876–1896): the buffer
is byte-swapped when `mach_swap`, then copied to the output. -/
def intBinaryPayload (machSwap : Bool) (bs : List Nat) : List Nat :=
  if machSwap then bswap4 bs else bs

/-! ## C3: Postgres binary COPY frame -/

/-- The 15-byte `pgcopy_hdr` signature, fits2db.c line 205:
`"PGCOPY\n\377\r\n\0\0\0\0\0"` (the 11-byte COPY-BINARY signature plus the
4 zero flag bytes). -/
def pgcopy_hdr : List Nat :=
  [0x50, 0x47, 0x43, 0x4F, 0x50, 0x59, 0x0A, 0xFF, 0x0D, 0x0A, 0, 0, 0, 0, 0]

/-- The 4-byte zero header-extension length written by `dl_printSQLHdr`
line 1303 (`hdr_extn = 0`, zero in either byte order). -/
def hdrExtnBytes : List Nat := [0, 0, 0, 0]

/-- Big-endian 16-bit encoding (`htons`). -/
def be16 (n : Nat) : List Nat := [n / 256 % 256, n % 256]

/-- Big-endian 32-bit encoding (`htonl`). -/
def be32 (n : Nat) : List Nat :=
  [n / 2 ^ 24 % 256, n / 2 ^ 16 % 256, n / 2 ^ 8 % 256, n % 256]

/-- Field count emitted at the start of each binary row, `dl_fits2db`
lines 795–801: `htons(numOutCols)` when exploding, else `htons(ncols)`
(the input file's column count). -/
def rowFieldCount (explode : Bool) (numOutCols ncols : Nat) : Nat :=
  if explode then numOutCols else ncols

/-- One binary field as emitted by the value encoders: a 32-bit big-endian
length prefix followed by the payload bytes. -/
def binField (payload : List Nat) : List Nat := be32 payload.length ++ payload

/-- One binary row: the 16-bit big-endian field count, then the fields. -/
def binRow (explode : Bool) (numOutCols ncols : Nat)
    (fields : List (List Nat)) : List Nat :=
  be16 (rowFieldCount explode numOutCols ncols) ++
    (fields.map (fun p => binField p)).flatten

/-- The Postgres-binary trailer, `dl_fits2db` lines 849–851: a native
`short -1`, i.e. bytes 0xFF 0xFF in either byte order.  It is written only
under the closer condition of lines 841–842 (`closerRuns`). -/
def pgTrailer : List Nat := [0xFF, 0xFF]

/-- The `COPY <t> FROM stdin WITH BINARY;\n` text line written by
`dl_printSQLHdr` lines 1296–1300 before the signature, as bytes. -/
def copyBinaryPreamble (t : String) : List Nat :=
  ("COPY " ++ t ++ " FROM stdin WITH BINARY;\n").toList.map (fun c => c.toNat)

/-- The bytes a Postgres-binary run (with loading on, the default) writes
for one file: `--binary` forces `bundle = 1` (main line 477), so `bnum` is
always 0 and the bundle opener of `dl_printSQLHdr` (called at lines
756–757, body at 1295–1303: the `COPY … WITH BINARY;` line, the 15-byte
signature, and the 4-byte zero header-extension length) runs for every
file; then the rows of the chunk loop (lines 794–801, no newline in binary
mode per line 826); then the trailer of lines 849–851, but only when the
closer condition of lines 841–842 holds — which with `bnum = 0` and
`bundle = 1` requires concatenation at the last input file.  Each row is
given as its list of field payloads. -/
def pgBinaryFileBytes (explode concat : Bool) (numOutCols ncols : Nat)
    (filenum nfiles : Nat) (t : String)
    (rows : List (List (List Nat))) : List Nat :=
  copyBinaryPreamble t ++ pgcopy_hdr ++ hdrExtnBytes ++
    (rows.map (fun fields => binRow explode numOutCols ncols fields)).flatten ++
    (if closerRuns concat filenum nfiles 0 1 then pgTrailer else [])

/-- Modelled from claim C3 as stated: the byte stream is exactly the
15-byte signature, a 4-byte zero header-extension length, then for each
row a 16-bit big-endian field count EQUAL TO THE DECLARED OUTPUT-COLUMN
COUNT followed by, for each field, a 32-bit big-endian length and the
payload bytes, and finally the 16-bit big-endian -1. -/
def spec_pgFrame (numOutCols : Nat) (rows : List (List (List Nat))) : List Nat :=
  [0x50, 0x47, 0x43, 0x4F, 0x50, 0x59, 0x0A, 0xFF, 0x0D, 0x0A, 0, 0, 0, 0, 0] ++
    [0, 0, 0, 0] ++
    (rows.map (fun fields =>
      be16 numOutCols ++ (fields.map (fun p => be32 p.length ++ p)).flatten)).flatten ++
    [0xFF, 0xFF]

/-- Modelled from the amended claim C3: each file of a Postgres-binary run
begins with the `COPY … FROM stdin WITH BINARY;` line, the 15-byte
signature, and the 4-byte zero header-extension length; each row is a
16-bit big-endian field count equal to the declared output-column count
followed by length-prefixed fields; and the 16-bit big-endian -1 trailer
appears exactly when the run concatenates and this is the last input
file. -/
def spec_pgBinaryFile (concat : Bool) (numOutCols : Nat)
    (filenum nfiles : Nat) (t : String)
    (rows : List (List (List Nat))) : List Nat :=
  copyBinaryPreamble t ++
    [0x50, 0x47, 0x43, 0x4F, 0x50, 0x59, 0x0A, 0xFF, 0x0D, 0x0A, 0, 0, 0, 0, 0] ++
    [0, 0, 0, 0] ++
    (rows.map (fun fields =>
      be16 numOutCols ++ (fields.map (fun p => be32 p.length ++ p)).flatten)).flatten ++
    (if concat && (filenum == nfiles - 1) then [0xFF, 0xFF] else [])

/-! ## C4: STRING columns in text mode -/

/-- Trailing-space removal loop of `sstrip` (fits2db.c line 2482): clears
trailing blanks from the end while the cursor stays strictly after the
first character, so an all-blank string keeps its first character. -/
def c_dropTrail (s : List Char) : List Char :=
  match s.reverse.dropWhile (· == ' ') with
  | [] => s.take 1
  | l => l.reverse

/-- `sstrip` (lines 2473–2488): remove trailing spaces (line 2482), then
skip leading spaces (line 2485). -/
def c_sstrip (s : List Char) : List Char :=
  (c_dropTrail s).dropWhile (· == ' ')

/-- Body of the `dl_escapeCSV` loop (lines 2302–2306): copy each character
and double it when it equals the quote character. -/
def c_escapeBody (q : Char) : List Char → List Char
  | [] => []
  | c :: rest =>
      if c == q then c :: q :: c_escapeBody q rest
      else c :: c_escapeBody q rest

/-- `dl_escapeCSV` (lines 2291–2308): enclose in the quote character,
doubling every inner quote character. -/
def dl_escapeCSV (q : Char) (s : List Char) : List Char :=
  q :: c_escapeBody q s ++ [q]

/-- `dl_quote` (lines 2314–2329): enclose in the quote character without
doubling. -/
def dl_quote (q : Char) (s : List Char) : List Char :=
  q :: s ++ [q]

/-- `dl_printString`, text path (lines 1626–1644): with `do_escape`,
escape the (optionally stripped) buffer; else with `do_quote`, quote the
(optionally stripped) buffer; else copy `sstrip(buf)` — the raw branch
strips unconditionally (line 1637). -/
def dl_printString_text (strip escape quote : Bool) (q : Char)
    (buf : List Char) : List Char :=
  if escape then dl_escapeCSV q (if strip then c_sstrip buf else buf)
  else if quote then dl_quote q (if strip then c_sstrip buf else buf)
  else c_sstrip buf

/-- Plain removal of leading and trailing spaces (used by the amended
description of C4): drop trailing blanks, then leading blanks. -/
def stripEnds (s : List Char) : List Char :=
  ((s.reverse.dropWhile (· == ' ')).reverse).dropWhile (· == ' ')

/-- Quote-doubling as described by the spec: every inner quote character
is written twice, the whole enclosed in quote characters. -/
def spec_escaped (q : Char) (s : List Char) : List Char :=
  q :: (s.flatMap fun c => if c == q then [c, q] else [c]) ++ [q]

/-- Modelled from the amended claim C4: with escape on, the value
(stripped iff the strip flag is on) is enclosed in the quote character
with inner quotes doubled; otherwise with quoting on it is enclosed
without doubling; otherwise the value always has its leading and trailing
spaces removed, regardless of the strip flag. -/
def spec_printString_amended (strip escape quote : Bool) (q : Char)
    (buf : List Char) : List Char :=
  if escape then spec_escaped q (if strip then stripEnds buf else buf)
  else if quote then q :: (if strip then stripEnds buf else buf) ++ [q]
  else stripEnds buf

/-! ## C5: NaN and infinity fidelity -/

/-- Classification of an IEEE value as the text encoders branch on it.  A
finite value carries its formatted token abstractly; the claim concerns
the NaN/infinity branches only. -/
inductive RVal
  | nan
  | posInf
  | negInf
  | fin (tok : List Char)
  deriving DecidableEq

/-- C `isnan`. -/
def c_isnan : RVal → Bool
  | .nan => true
  | _ => false

/-- C (glibc) `isinf`: 1 for positive infinity, -1 for negative infinity,
0 otherwise.  Both infinities are truthy in C. -/
def c_isinf : RVal → Int
  | .posInf => 1
  | .negInf => -1
  | _ => 0

/-- The single-quote character, written by code point to keep it out of
string literals. -/
def sq : Char := Char.ofNat 39

/-- Single-quoted token: `sq :: tok ++ [sq]`. -/
def squoted (tok : List Char) : List Char := sq :: tok ++ [sq]

/-- Text-mode special-value branches of `dl_printFloat` (fits2db.c lines
2036–2060) and `dl_printDouble` (lines 2126–2150), which are identical:
if `isnan`, emit `'NaN'` for SQLite/MySQL, `NaN` for Postgres, and the
`%f`-formatted decimal (`fmtF`) otherwise; else capture `sign = isinf(v)`
and, when it is nonzero, emit the C ternary `sign ? "'Infinity'" :
"'-Infinity'"` (SQLite/MySQL) or `sign ? "Infinity" : "-Infinity"`
(Postgres), the `%f` decimal for other formats; finite values take the
`%f` decimal.  `fmtF` abstracts the C `sprintf` formatting. -/
def dl_printReal_text (format : Format) (fmtF : RVal → List Char)
    (v : RVal) : List Char :=
  if c_isnan v then
    if format == .sqlite || format == .mysql then squoted "NaN".toList
    else if format == .postgres then "NaN".toList
    else fmtF v
  else
    let sign : Int := c_isinf v
    if sign ≠ 0 then
      if format == .sqlite || format == .mysql then
        if sign ≠ 0 then squoted "Infinity".toList
        else squoted "-Infinity".toList
      else if format == .postgres then
        if sign ≠ 0 then "Infinity".toList else "-Infinity".toList
      else fmtF v
    else fmtF v

/-! ## C6: schema equality under concatenation -/

/-- FITS element type codes used by the column comparisons (CFITSIO
`TSTRING`, `TLOGICAL`, ...); `tnone` stands for the zeroed type code of an
untouched `inColumns[]` slot. -/
inductive FType
  | tnone
  | tstring
  | tlogical
  | tbyte
  | tsbyte
  | tshort
  | tushort
  | tint
  | tuint
  | tlonglong
  | tfloat
  | tdouble
  deriving DecidableEq, Repr

/-- The column descriptor fields compared by `dl_validateColInfo`
(fits2db.c lines 133–146; `repeat` is spelled `repeat_` because `repeat`
is a Lean keyword). -/
structure Col where
  colname : String
  type : FType
  ndim : Nat
  nrows : Nat
  ncols : Nat
  repeat_ : Nat
  deriving DecidableEq, Repr

/-- A zeroed `Col`, as global array slots start out. -/
def zeroCol : Col := ⟨"", .tnone, 0, 0, 0, 0⟩

/-- Per-column equality check of `dl_validateColInfo` lines 1001–1014:
identical name, element type, `ndim`, `nrows`, and — when the type is not
`TSTRING` — identical `ncols` and `repeat`. -/
def colMatch (new old : Col) : Bool :=
  (new.colname == old.colname) &&
  (new.type == old.type) &&
  (new.ndim == old.ndim) &&
  (new.nrows == old.nrows) &&
  (new.type == FType.tstring || ((new.ncols == old.ncols) && (new.repeat_ == old.repeat_)))

/-- `dl_validateColInfo` (lines 999–1014): compare the fresh file's
columns (indices `1..lastcol`, where `lastcol` is the fresh file's column
count) against the recorded `inColumns` slots, which read as `zeroCol`
beyond the recorded vector. -/
def dl_validateColInfo (inCols newCols : List Col) : Bool :=
  (List.range newCols.length).all fun i =>
    colMatch (newCols.getD i zeroCol) (inCols.getD i zeroCol)

/-- The append step of `dl_fits2db` lines 732–739 with the state update of
`dl_validateColInfo` lines 1020–1021: on match the fresh vector replaces
the recorded one and the file streams; on mismatch the file is skipped and
the recorded vector is untouched.  Returns (streamed?, recorded vector
afterwards). -/
def dl_concatAppendStep (inCols newCols : List Col) : Bool × List Col :=
  if dl_validateColInfo inCols newCols then (true, newCols) else (false, inCols)

/-! ## C7: chunk size per I/O iteration -/

/-- `dl_fits2db` lines 664–675: the requested chunk is clamped to `nrows`
and assigned to `nelem`, which is then immediately overwritten with the
reader's optimal `rowsize` — the requested chunk size plays no further
role in the program. -/
def dl_initNelem (chunkSize nrows rowsize : Nat) : Nat :=
  let chunk := if chunkSize > nrows then nrows else chunkSize
  let _nelem := chunk
  rowsize

/-- The row loop of `dl_fits2db` lines 773–785: starting at `jj = 1`,
while `jj <= nrows`, set `nelem = nrows - jj + 1` when `jj + nelem >=
nrows`, read `nelem` rows, and advance `jj` by `nelem`.  Returns the
per-iteration row counts; the fuel argument bounds the recursion and is
never exhausted when `nelem >= 1`. -/
def chunkLoop : Nat → Nat → Nat → Nat → List Nat
  | 0, _, _, _ => []
  | fuel + 1, jj, nelem, nrows =>
    if jj > nrows then []
    else
      let ne := if nrows ≤ jj + nelem then nrows - jj + 1 else nelem
      ne :: chunkLoop fuel (jj + ne) ne nrows

/-- Per-iteration row counts of one file's row loop. -/
def dl_chunkSizes (chunkSize nrows rowsize : Nat) : List Nat :=
  chunkLoop (nrows + 1) 1 (dl_initNelem chunkSize nrows rowsize) nrows

/-! ## Theorems for C1 and C2 -/

/-- C1: in a default run (Postgres text format, `bundle = 1`, no
concatenation, a single input file), the bundle-closer condition of
`dl_fits2db` lines 841–842 is false — `bnum` is always `0` when
`bundle = 1`, and `bnum > 0` fails — so no closer bytes are written at
all, although the closer for Postgres text is `"\\.\n"` (bytes 92 46 10)
and the claim (and scenario S2 of the specification, and the program's
purpose of emitting a complete `COPY` statement) requires it at the last
file of every bundle, in particular for every file when `bundle = 1`. -/
theorem c1_closer_skipped_at_default_bundle :
    fileEpilogue .postgres false false 0 1 0 1 = [] ∧
    closerBytes .postgres false = [92, 46, 10] ∧
    fileEpilogue .postgres true false 0 1 0 1 = [] := by
  constructor
  · rfl
  · exact ⟨rfl, rfl⟩

/-- C2: on a little-endian host (`mach_swap = 1`), a 32-bit integer column
holding source value 1 (big-endian bytes 0,0,0,1) is printed in text mode
as 16777216, not 1, because `dl_printInt` swaps only when `do_binary`
(line 1873); and its binary payload is the byte-swapped (little-endian)
sequence 1,0,0,0 instead of the big-endian source bytes.  The 16-bit
path (`dl_printShort`, line 1803, swap when NOT binary) behaves as the
claim states — the asymmetry is the known source bug the specification
directs to correct. -/
theorem c2_int_swap_policy_bug :
    intTextVal true [0, 0, 0, 1] = 16777216 ∧
    beVal [0, 0, 0, 1] = 1 ∧
    intBinaryPayload true [0, 0, 0, 1] = [1, 0, 0, 0] ∧
    shortTextVal true [0, 1] = 1 ∧
    shortBinaryPayload true [0, 1] = [0, 1] := by
  refine ⟨rfl, rfl, rfl, rfl, rfl⟩

/-! ## Theorems for C3 -/

/-- C3 fails as stated, on two counts, at a non-concatenated single-file
Postgres-binary run with explosion off and a synthetic serial column
configured (one input column, so `ncols = 1` but `numOutCols = 2`), one
row with one 4-byte field: the emitted stream ends with the payload byte 7
— no -1 trailer is written, since the closer condition is never met in a
non-concat binary run — while the claimed frame ends with 0xFF; and the
emitted field count is `ncols = 1`, not the declared output-column count
2. -/
theorem c3_stream_counterexample :
    pgBinaryFileBytes false false 2 1 0 1 "t" [[[0, 0, 0, 7]]]
      ≠ spec_pgFrame 2 [[[0, 0, 0, 7]]] ∧
    (pgBinaryFileBytes false false 2 1 0 1 "t" [[[0, 0, 0, 7]]]).getLast?
      = some 7 ∧
    (spec_pgFrame 2 [[[0, 0, 0, 7]]]).getLast? = some 0xFF ∧
    rowFieldCount false 2 1 = 1 ∧ (1 : Nat) ≠ 2 := by
  refine ⟨by decide, by decide, by decide, by decide, by decide⟩

theorem rowFieldCount_eq (explode : Bool) (numOutCols ncols : Nat)
    (h : explode = true ∨ numOutCols = ncols) :
    rowFieldCount explode numOutCols ncols = numOutCols := by
  rcases h with h | h
  · simp [rowFieldCount, h]
  · cases explode <;> simp [rowFieldCount, h]

theorem closerRuns_bundle_one (concat : Bool) (filenum nfiles : Nat) :
    closerRuns concat filenum nfiles 0 1 = (concat && (filenum == nfiles - 1)) := by
  simp [closerRuns]

/-- C3 amended: when explosion is on, or when no synthetic columns are
configured (so the declared output-column count equals the input column
count), the bytes a Postgres-binary run writes for a file are exactly the
`COPY … FROM stdin WITH BINARY;` line, the 15-byte signature, the 4-byte
zero header-extension length, per row a 16-bit big-endian field count
equal to the declared output-column count followed by length-prefixed
fields, and the 16-bit big-endian -1 trailer exactly when the run
concatenates and this is the last input file (never in a non-concat
binary run, since `--binary` forces `bundle = 1` and the closer condition
requires `bnum > 0` otherwise); without explosion the emitted field count
is the input column count `ncols`, which understates the actual fields
when add/sid/rid columns are configured. -/
theorem c3_frame_integrity (explode concat : Bool) (numOutCols ncols : Nat)
    (filenum nfiles : Nat) (t : String) (rows : List (List (List Nat)))
    (h : explode = true ∨ numOutCols = ncols) :
    pgBinaryFileBytes explode concat numOutCols ncols filenum nfiles t rows =
      spec_pgBinaryFile concat numOutCols filenum nfiles t rows := by
  simp only [pgBinaryFileBytes, spec_pgBinaryFile, binRow, binField, pgcopy_hdr,
    hdrExtnBytes, pgTrailer, rowFieldCount_eq explode numOutCols ncols h,
    closerRuns_bundle_one]

/-- Witness for `c3_frame_integrity` at concrete inputs: an exploded
non-concat file (no trailer) and a no-synthetics concat last file
(trailer present). -/
theorem c3_frame_integrity_witness :
    pgBinaryFileBytes true false 1 1 0 1 "t" [[[0, 0, 0, 5]]] =
      spec_pgBinaryFile false 1 0 1 "t" [[[0, 0, 0, 5]]] ∧
    pgBinaryFileBytes false true 1 1 1 2 "t" [[[0, 0, 0, 5]]] =
      spec_pgBinaryFile true 1 1 2 "t" [[[0, 0, 0, 5]]] :=
  ⟨c3_frame_integrity true false 1 1 0 1 "t" [[[0, 0, 0, 5]]] (Or.inl rfl),
   c3_frame_integrity false true 1 1 1 2 "t" [[[0, 0, 0, 5]]] (Or.inr rfl)⟩

/-! ## Theorems for C4 -/

theorem c_sstrip_eq_stripEnds (s : List Char) : c_sstrip s = stripEnds s := by
  unfold c_sstrip c_dropTrail stripEnds
  cases h : s.reverse.dropWhile (· == ' ') with
  | nil =>
      have ha : ∀ x ∈ s.reverse, (x == ' ') = true :=
        List.dropWhile_eq_nil_iff.mp h
      cases s with
      | nil => rfl
      | cons a t =>
          have hb : (a == ' ') = true := ha a (by simp)
          show List.dropWhile (· == ' ') [a] = List.dropWhile (· == ' ') [].reverse
          simp [List.dropWhile_cons, hb]
  | cons c l =>
      rfl

theorem c_escapeBody_eq (q : Char) (s : List Char) :
    c_escapeBody q s = s.flatMap fun c => if c == q then [c, q] else [c] := by
  induction s with
  | nil => rfl
  | cons c rest ih =>
      cases h : c == q with
      | true =>
          have hc : c = q := by
            exact beq_iff_eq.mp h
          simp [c_escapeBody, hc, ih]
      | false =>
          have hc : ¬ c = q := by
            intro hcq
            rw [hcq] at h
            simp at h
          simp [c_escapeBody, h, hc, ih]

/-- C4 corrected, amended claim: with escape on, the value (stripped iff
the strip flag is on) is enclosed in the quote character with every inner
quote character doubled; otherwise with quoting on it is enclosed without
doubling (again stripped iff the strip flag is on); otherwise (both off)
the value always has its leading and trailing spaces removed, regardless of
the strip flag. -/
theorem c4_text_string_encoding (strip escape quote : Bool) (q : Char)
    (buf : List Char) :
    dl_printString_text strip escape quote q buf =
      spec_printString_amended strip escape quote q buf := by
  simp only [dl_printString_text, spec_printString_amended, dl_escapeCSV,
    spec_escaped, dl_quote, c_sstrip_eq_stripEnds, c_escapeBody_eq]

/-- C4 fails as stated: with strip, escape, and quoting all off, the
source value `" a "` is emitted as `"a"` — surrounding spaces are NOT
preserved, because the raw branch of `dl_printString` calls `sstrip`
unconditionally (fits2db.c line 1637). -/
theorem c4_nostrip_counterexample :
    dl_printString_text false false false (Char.ofNat 34) [' ', 'a', ' '] = ['a'] ∧
    [' ', 'a', ' '] ≠ ['a'] := by
  exact ⟨by decide, by decide⟩

/-! ## Theorem for C5 -/

/-- C5: negative infinity is emitted as `Infinity` (Postgres) and
`'Infinity'` (MySQL/SQLite), never `-Infinity` — the C ternary
`sign ? "Infinity" : "-Infinity"` sits under the test `isinf(v)` whose
value `sign` is already nonzero (it is -1 for negative infinity, and -1 is
truthy), so the `-Infinity` arm is dead code.  The NaN branches and
positive infinity behave as the claim states. -/
theorem c5_negative_infinity_bug :
    dl_printReal_text .postgres (fun _ => []) .negInf = "Infinity".toList ∧
    dl_printReal_text .mysql (fun _ => []) .negInf = squoted "Infinity".toList ∧
    "Infinity".toList ≠ "-Infinity".toList ∧
    dl_printReal_text .postgres (fun _ => []) .nan = "NaN".toList ∧
    dl_printReal_text .sqlite (fun _ => []) .nan = squoted "NaN".toList ∧
    dl_printReal_text .postgres (fun _ => []) .posInf = "Infinity".toList ∧
    dl_printReal_text .delimited (fun _ => "0.5".toList) (.fin "0.5".toList)
      = "0.5".toList := by
  refine ⟨rfl, rfl, by decide, rfl, rfl, rfl, rfl⟩

/-! ## Theorems for C6 -/

/-- The per-column match condition, stated as a proposition. -/
def ColMatchP (new old : Col) : Prop :=
  new.colname = old.colname ∧
  new.type = old.type ∧
  new.ndim = old.ndim ∧
  new.nrows = old.nrows ∧
  (new.type = FType.tstring ∨ (new.ncols = old.ncols ∧ new.repeat_ = old.repeat_))

theorem colMatch_iff (new old : Col) : colMatch new old = true ↔ ColMatchP new old := by
  simp only [colMatch, ColMatchP, Bool.and_eq_true, Bool.or_eq_true, beq_iff_eq]
  tauto

theorem dl_validateColInfo_iff (inCols newCols : List Col)
    (h : newCols.length = inCols.length) :
    dl_validateColInfo inCols newCols = true ↔
      ∀ i (hi : i < newCols.length),
        ColMatchP (newCols.get ⟨i, hi⟩) (inCols.get ⟨i, by omega⟩) := by
  unfold dl_validateColInfo
  rw [List.all_eq_true]
  constructor
  · intro ha i hi
    have hm := ha i (List.mem_range.mpr hi)
    rw [List.getD_eq_getElem _ _ hi, List.getD_eq_getElem _ _ (by omega)] at hm
    exact (colMatch_iff _ _).mp hm
  · intro ha x hx
    have hxl : x < newCols.length := List.mem_range.mp hx
    rw [List.getD_eq_getElem _ _ hxl, List.getD_eq_getElem _ _ (by omega)]
    exact (colMatch_iff _ _).mpr (ha x hxl)

/-- C6: appending a later file under concatenation streams it exactly when
every column matches the recorded schema in name, element type, `ndim`,
and `nrows`, and additionally in `ncols` and `repeat` for non-string
columns; the recorded vector is unchanged on mismatch and replaced by the
fresh vector on match. -/
theorem c6_schema_equality_check (inCols newCols : List Col)
    (h : newCols.length = inCols.length) :
    ((dl_concatAppendStep inCols newCols).1 = true ↔
      ∀ i (hi : i < newCols.length),
        ColMatchP (newCols.get ⟨i, hi⟩) (inCols.get ⟨i, by omega⟩)) ∧
    ((dl_concatAppendStep inCols newCols).1 = true →
      (dl_concatAppendStep inCols newCols).2 = newCols) ∧
    ((dl_concatAppendStep inCols newCols).1 = false →
      (dl_concatAppendStep inCols newCols).2 = inCols) := by
  have hstep1 : (dl_concatAppendStep inCols newCols).1 =
      dl_validateColInfo inCols newCols := by
    unfold dl_concatAppendStep
    by_cases hv : dl_validateColInfo inCols newCols <;> simp [hv]
  refine ⟨?_, ?_, ?_⟩
  · rw [hstep1]
    exact dl_validateColInfo_iff inCols newCols h
  · intro h1
    rw [hstep1] at h1
    unfold dl_concatAppendStep
    simp [h1]
  · intro h1
    rw [hstep1] at h1
    unfold dl_concatAppendStep
    simp [h1]

/-- A sample column descriptor. -/
def exCol : Col := ⟨"RA", .tdouble, 1, 1, 1, 1⟩

/-- A sample column descriptor differing from `exCol` in `repeat`. -/
def exColBad : Col := ⟨"RA", .tdouble, 1, 1, 1, 3⟩

/-- Witness for `c6_schema_equality_check` at concrete inputs: a matching
file streams and replaces the vector; a mismatching one is skipped with
the vector untouched. -/
theorem c6_schema_equality_check_witness :
    ((dl_concatAppendStep [exCol] [exCol]).1 = true ∧
      (dl_concatAppendStep [exCol] [exCol]).2 = [exCol]) ∧
    ((dl_concatAppendStep [exCol] [exColBad]).1 = false ∧
      (dl_concatAppendStep [exCol] [exColBad]).2 = [exCol]) := by
  have hgood := c6_schema_equality_check [exCol] [exCol] rfl
  have hbad := c6_schema_equality_check [exCol] [exColBad] rfl
  have hg1 : (dl_concatAppendStep [exCol] [exCol]).1 = true := by
    refine hgood.1.mpr ?_
    intro i hi
    have h0 : i = 0 := by
      simp only [List.length_singleton, Nat.lt_one_iff] at hi
      exact hi
    subst h0
    exact ⟨rfl, rfl, rfl, rfl, Or.inr ⟨rfl, rfl⟩⟩
  have hb1 : (dl_concatAppendStep [exCol] [exColBad]).1 = false := by
    rcases hb : (dl_concatAppendStep [exCol] [exColBad]).1 with _ | _
    · rfl
    · exfalso
      have := (hbad.1.mp hb) 0 (by decide)
      rcases this with ⟨_, _, _, _, hlast⟩
      rcases hlast with hstr | ⟨_, hrep⟩
      · exact absurd hstr (by decide)
      · exact absurd hrep (by decide)
  exact ⟨⟨hg1, hgood.2.1 hg1⟩, ⟨hb1, hbad.2.2 hb1⟩⟩

/-! ## Theorem for C7 -/

/-- C7: the rows read per iteration are NOT
`min(optimal, requested_chunk, remaining)`.  First input: `nrows = 100`,
optimal `rowsize = 10`, requested chunk 3 — the first iteration reads 10
rows, not 3, because `dl_fits2db` line 675 overwrites `nelem` (just set
from the clamped chunk at line 669) with `rowsize`, so the `--chunk`
request documented in the program's own usage text is ignored.  Second
input: `nrows = 7`, `rowsize = 6`, chunk 100 — the single iteration reads
7 rows (the `>=` at line 774 triggers `nelem = nrows - jj + 1` one chunk
early), where the claimed minimum is 6. -/
theorem c7_chunk_request_ignored :
    (dl_chunkSizes 3 100 10).head? = some 10 ∧
    min (min 10 3) 100 = 3 ∧
    dl_chunkSizes 100 7 6 = [7] ∧
    min (min 6 100) 7 = 6 := by
  refine ⟨by decide, by decide, by decide, by decide⟩

/-! ## C8: delimited header row -/

/-- `dl_printHdr` for `TAB_DELIMITED` (fits2db.c lines 1178–1194): each
output column name, a `,` between successive names (line 1187 — always a
comma; the line printing the configured delimiter is commented out), and
a terminating newline (line 1194). -/
def dl_printHdr_delimited (colnames : List (List Char)) : List Char :=
  (colnames.intersperse [',']).flatten ++ ['\n']

/-- The delimited-format output of one (first or non-concatenated) file,
`dl_fits2db` lines 694–701 and 826–827: the header row is printed
unconditionally whenever the prologue runs — the `header` flag (cleared by
`--noheader`, main line 387) is never consulted anywhere in the program —
followed by one newline-terminated line per row. -/
def delimitedFileOutput (header : Bool) (colnames : List (List Char))
    (rowLines : List (List Char)) : List Char :=
  dl_printHdr_delimited colnames ++
    (rowLines.map (fun r => r ++ ['\n'])).flatten

/-- C8: scenario S1 fails — a 3-row table with one column under
`--csv --noheader` still begins with the header row, because the `header`
flag is write-only; the output is `"COL\n1\n2\n3\n"`, not `"1\n2\n3\n"`.
(The comma-joining and newline termination of the header itself are as
claimed.) -/
theorem c8_noheader_ignored :
    delimitedFileOutput false ["COL".toList] ["1".toList, "2".toList, "3".toList]
      = "COL\n1\n2\n3\n".toList ∧
    "COL\n1\n2\n3\n".toList ≠ "1\n2\n3\n".toList ∧
    delimitedFileOutput false ["A".toList, "B".toList] [] = "A,B\n".toList := by
  refine ⟨by decide, by decide, by decide⟩

/-! ## C9: serial id column -/

/-- `dl_printSerial` (fits2db.c lines 2177–2201): captures the counter
(`ival = serial_number++`) and emits it; returns the emitted value and the
updated counter. -/
def dl_printSerial (serial : Nat) : Nat × Nat := (serial, serial + 1)

/-- Serial values emitted for the rows of one file, threading the counter
row by row (every row of every chunk emits exactly one serial value). -/
def serialEmitRows : Nat → Nat → List Nat × Nat
  | 0, s => ([], s)
  | n + 1, s =>
    let e := dl_printSerial s
    let rest := serialEmitRows n e.2
    (e.1 :: rest.1, rest.2)

/-- Serial values of a whole invocation over files with the given row
counts: `serial_number` is a process global that `dl_fits2db` never
writes, so the counter threads across files unchanged. -/
def serialRun : List Nat → Nat → List Nat × Nat
  | [], s => ([], s)
  | c :: cs, s =>
    let f := serialEmitRows c s
    let rest := serialRun cs f.2
    (f.1 ++ rest.1, rest.2)

theorem serialEmitRows_eq (n s : Nat) :
    serialEmitRows n s = (List.range' s n, s + n) := by
  induction n generalizing s with
  | zero => rfl
  | succ n ih =>
      simp only [serialEmitRows, dl_printSerial, ih (s + 1), List.range'_succ,
        Prod.mk.injEq]
      exact ⟨by trivial, by omega⟩

theorem serialRun_eq (counts : List Nat) (s : Nat) :
    serialRun counts s = (List.range' s counts.sum, s + counts.sum) := by
  induction counts generalizing s with
  | nil => simp [serialRun]
  | cons c cs ih =>
      simp only [serialRun, serialEmitRows_eq, ih (s + c), List.sum_cons,
        Prod.mk.injEq]
      constructor
      · rw [List.range'_append_1]
        congr 1
        omega
      · omega

/-- C9: across all rows, chunks, and files of an invocation, the emitted
serial values are exactly `0, 1, 2, …` — strictly increasing and
contiguous from 0 — the final counter equals the number of rows, and from
any counter state the counter advances by exactly one per emitted value
(never reset between files). -/
theorem c9_serial_monotonic (counts : List Nat) :
    (serialRun counts 0).1 = List.range counts.sum ∧
    (serialRun counts 0).1.Pairwise (· < ·) ∧
    (serialRun counts 0).2 = counts.sum ∧
    ∀ s : Nat, (serialRun counts s).2 = s + (serialRun counts s).1.length := by
  refine ⟨?_, ?_, ?_, ?_⟩
  · simp [serialRun_eq, List.range_eq_range']
  · have h := List.pairwise_lt_range counts.sum
    rw [List.range_eq_range'] at h
    simpa [serialRun_eq] using h
  · simp [serialRun_eq]
  · intro s
    simp [serialRun_eq, List.length_range']

/-! ## C10: drop implies create -/

/-- The DDL-relevant command-line options. -/
inductive Opt
  | drop
  | create
  | truncate
  deriving DecidableEq, Repr

/-- The DDL flag variables of fits2db.c lines 183–185. -/
structure DDLFlags where
  do_drop : Nat
  do_create : Nat
  do_truncate : Nat
  deriving DecidableEq, Repr

/-- Initial flag values (lines 183–185: all zero). -/
def initFlags : DDLFlags := ⟨0, 0, 0⟩

/-- Option effects of `main` lines 417–419: `--drop` increments both
`do_drop` and `do_create`; `--create` increments `do_create`;
`--truncate` increments `do_truncate`. -/
def applyOpt (f : DDLFlags) : Opt → DDLFlags
  | .drop => { f with do_drop := f.do_drop + 1, do_create := f.do_create + 1 }
  | .create => { f with do_create := f.do_create + 1 }
  | .truncate => { f with do_truncate := f.do_truncate + 1 }

/-- Flag state after parsing an option list. -/
def parseOpts (opts : List Opt) : DDLFlags := opts.foldl applyOpt initFlags

/-- `dl_createSQLTable` (fits2db.c lines 1241–1278) as the ordered list of
emitted SQL statements: the MySQL database preamble when `dbname` is set,
`DROP TABLE IF EXISTS … CASCADE;` when `do_drop`, then `CREATE TABLE IF
NOT EXISTS … ;` (with `WITH OIDS` for Postgres when requested).
`colDecls` stands for the column declaration text. -/
def dl_createSQLTable (do_drop : Nat) (dbname : Option String)
    (format : Format) (oids : Bool) (t colDecls : String) : List String :=
  (match dbname, format with
   | some d, .mysql =>
       ["CREATE DATABASE IF NOT EXISTS " ++ d ++ ";", "USE " ++ d ++ ";"]
   | _, _ => []) ++
  (if 0 < do_drop then ["DROP TABLE IF EXISTS " ++ t ++ " CASCADE;"] else []) ++
  ["CREATE TABLE IF NOT EXISTS " ++ t ++ " (" ++ colDecls ++
    (if oids && format == Format.postgres then ") WITH OIDS;" else ");")]

/-- The SQL prologue of `dl_fits2db` lines 725–729: `dl_createSQLTable`
when `do_create` is set, then `TRUNCATE TABLE …;` when `do_truncate`. -/
def sqlPrologue (f : DDLFlags) (dbname : Option String) (format : Format)
    (oids : Bool) (t colDecls : String) : List String :=
  (if 0 < f.do_create then
      dl_createSQLTable f.do_drop dbname format oids t colDecls
    else []) ++
  (if 0 < f.do_truncate then ["TRUNCATE TABLE " ++ t ++ ";"] else [])

/-- C10: with `--drop` alone (create not requested), the prologue equals
the prologue of a `--drop --create` run and contains both the DROP and the
CREATE statements, because `main` line 417 increments `do_create` along
with `do_drop`. -/
theorem c10_drop_implies_create (dbname : Option String) (format : Format)
    (oids : Bool) (t colDecls : String) :
    sqlPrologue (parseOpts [Opt.drop]) dbname format oids t colDecls =
      sqlPrologue (parseOpts [Opt.drop, Opt.create]) dbname format oids t colDecls ∧
    ("DROP TABLE IF EXISTS " ++ t ++ " CASCADE;") ∈
      sqlPrologue (parseOpts [Opt.drop]) dbname format oids t colDecls ∧
    ("CREATE TABLE IF NOT EXISTS " ++ t ++ " (" ++ colDecls ++
        (if oids && format == Format.postgres then ") WITH OIDS;" else ");")) ∈
      sqlPrologue (parseOpts [Opt.drop]) dbname format oids t colDecls := by
  refine ⟨rfl, ?_, ?_⟩
  · simp [sqlPrologue, parseOpts, applyOpt, initFlags, dl_createSQLTable,
      List.mem_append]
  · simp [sqlPrologue, parseOpts, applyOpt, initFlags, dl_createSQLTable,
      List.mem_append]

end Fits2DB
